import Mathlib

/-!
Verification of the oil-price dashboard repository (`app.py`,
`ship_flows_mock.py`).  The definitions below are a shallow embedding of
the price fetcher, the capped rolling price-history buffer, the spread
metric, the history table merge, and the ship-flow position computation.
Prices, coordinates and volumes are embedded as rationals; timestamps as
natural numbers (seconds).
-/

namespace PythonDash

/-- One series entry of the dictionary returned by `fetch_oil_prices`
(`app.py` lines 91-102): the fields `price`, `timestamp`, `success`. -/
structure SeriesQuote where
  price : Rat
  timestamp : Nat
  success : Bool
deriving DecidableEq

/-- The dictionary returned by `fetch_oil_prices` on the 200/200 path:
one `SeriesQuote` per series. -/
structure FetchResult where
  wti : SeriesQuote
  brent : SeriesQuote
deriving DecidableEq

/-- The JSON body of one upstream response, as far as `fetch_oil_prices`
reads it: `data.rates.<SYMBOL>` (absent anywhere along the chain is
`none`) and `data.timestamp`. -/
structure ApiBody where
  rate : Option Rat
  timestamp : Option Nat
deriving DecidableEq

/-- One upstream HTTP response: status code and parsed JSON body. -/
structure HttpResponse where
  status : Nat
  body : ApiBody
deriving DecidableEq

/-- Embedding of `fetch_oil_prices` (`app.py` lines 87-105) as a function
of the two HTTP responses.  When both status codes equal 200 the result
dictionary is built, with `.get(..., 0)` defaulting every missing field
to 0 and `success` set to `True` for both series.  Otherwise the code
reports `"API Error: WTI Status: ..., Brent Status: ..."` and returns
`None`; the `Except.error` value carries the two reported status codes,
and `Except.toOption` recovers the `None`-or-dict view seen by `main`. -/
def fetch_oil_prices (wti_response brent_response : HttpResponse) :
    Except (Nat × Nat) FetchResult :=
  if wti_response.status == 200 && brent_response.status == 200 then
    .ok { wti := { price := wti_response.body.rate.getD 0,
                   timestamp := wti_response.body.timestamp.getD 0,
                   success := true },
          brent := { price := brent_response.body.rate.getD 0,
                     timestamp := brent_response.body.timestamp.getD 0,
                     success := true } }
  else
    .error (wti_response.status, brent_response.status)

/-- One stored buffer entry (`app.py` lines 243-246): the appended dict
`{'price': ..., 'timestamp': current_time}`. -/
structure Sample where
  price : Rat
  observed_at : Nat
deriving DecidableEq

/-- The session state `st.session_state.price_history` (`app.py`
line 232): one list per series. -/
structure PriceHistoryState where
  wti : List Sample
  brent : List Sample
deriving DecidableEq

/-- Buffer capacity (`app.py` lines 254-258 keep the last 100 entries). -/
def MAX_HISTORY : Nat := 100

/-- Embedding of the trim step `history = history[-100:]` applied when
`len(history) > 100` (`app.py` lines 255-258): keep the last
`MAX_HISTORY` entries. -/
def trimHistory (buf : List Sample) : List Sample :=
  if buf.length > MAX_HISTORY then buf.drop (buf.length - MAX_HISTORY) else buf

/-- Embedding of the conditional append (`app.py` lines 242-252): a
series' sample is appended exactly when that series' `success` flag is
set, stamped with `current_time`. -/
def appendIfSuccess (buf : List Sample) (q : SeriesQuote) (now : Nat) : List Sample :=
  if q.success then buf ++ [{ price := q.price, observed_at := now }] else buf

/-- One fetch-record cycle of `main` (`app.py` lines 238-258): when the
fetch returned `None` nothing happens; otherwise each successful series
is appended and both buffers are trimmed to `MAX_HISTORY`. -/
def record (st : PriceHistoryState) (result : Option FetchResult) (now : Nat) :
    PriceHistoryState :=
  match result with
  | none => st
  | some r =>
    { wti := trimHistory (appendIfSuccess st.wti r.wti now),
      brent := trimHistory (appendIfSuccess st.brent r.brent now) }

/-- A sequence of fetch-record cycles, each given by the fetch outcome
and the cycle's `current_time`. -/
def runCycles (st : PriceHistoryState) (cycles : List (Option FetchResult × Nat)) :
    PriceHistoryState :=
  cycles.foldl (fun s c => record s c.1 c.2) st

/-- A run of successful cycles starting from the empty session state:
every cycle carries a `FetchResult` (the fetch did not return `None`). -/
def successRun (cycles : List (FetchResult × Nat)) : PriceHistoryState :=
  runCycles { wti := [], brent := [] } (cycles.map (fun c => (some c.1, c.2)))

/-- The spread computation of `main` (`app.py` lines 298-299): defined
only when both series succeeded in the same fetch result, as
`brent.price - wti.price`. -/
def spread (r : FetchResult) : Option Rat :=
  if r.wti.success && r.brent.success then some (r.brent.price - r.wti.price)
  else none

/-- Two-digit zero padding, as produced by `strftime` fields. -/
def pad2 (n : Nat) : String :=
  if n < 10 then "0" ++ toString n else toString n

/-- Embedding of `timestamp.strftime('%H:%M:%S')` (`app.py` lines 330,
334) on a timestamp counted in seconds. -/
def strftimeHMS (t : Nat) : String :=
  pad2 (t / 3600 % 24) ++ ":" ++ pad2 (t / 60 % 60) ++ ":" ++ pad2 (t % 60)

/-- Embedding of `format_price` (`app.py` lines 114-116):
`f"${price:.2f}"`, rendering the price rounded to two decimals behind a
dollar sign. -/
def format_price (price : Rat) : String :=
  let cents : Int := round (price * 100)
  "$" ++ (if cents < 0 then "-" else "") ++
    toString (cents.natAbs / 100) ++ "." ++ pad2 (cents.natAbs % 100)

/-- One row of the "Recent Price History" table (`app.py` lines
326-335): the `Timestamp` cell (a string, initialised to `''`) and the
optional `WTI Price` / `Brent Price` cells. -/
structure DisplayRow where
  timestamp : String
  wtiPrice : Option String
  brentPrice : Option String
deriving DecidableEq

/-- The body of the table loop (`app.py` lines 326-335) at index `i`:
start from `{'Timestamp': ''}`; when WTI has an entry at `i` set its
price cell and overwrite the timestamp; when Brent has an entry at `i`
set its price cell and set the timestamp only when it is still empty. -/
def rowAt (wti brent : List Sample) (i : Nat) : DisplayRow :=
  let r0 : DisplayRow := { timestamp := "", wtiPrice := none, brentPrice := none }
  let r1 : DisplayRow :=
    match wti[i]? with
    | some s => { timestamp := strftimeHMS s.observed_at,
                  wtiPrice := some (format_price s.price), brentPrice := none }
    | none => r0
  match brent[i]? with
  | some s =>
    { r1 with
      brentPrice := some (format_price s.price)
      timestamp := if r1.timestamp = "" then strftimeHMS s.observed_at
        else r1.timestamp }
  | none => r1

/-- The table built by `main` (`app.py` lines 323-335): one row for each
index below `max(len(wti), len(brent))`. -/
def as_rows (wti brent : List Sample) : List DisplayRow :=
  (List.range (max wti.length brent.length)).map (rowAt wti brent)

/-- A geographic point, the `lat`/`lon` pair of a port row. -/
structure GeoPoint where
  lat : Rat
  lon : Rat
deriving DecidableEq

/-- The linear interpolation of `compute_positions`
(`ship_flows_mock.py` lines 57-58): componentwise
`start + (end - start) * progress`. -/
def position (start finish : GeoPoint) (progress : Rat) : Rat × Rat :=
  (start.lat + (finish.lat - start.lat) * progress,
   start.lon + (finish.lon - start.lon) * progress)

/-- One row of the ports table (`ship_flows_mock.py` lines 14-20). -/
structure PortRow where
  name : String
  lat : Rat
  lon : Rat
deriving DecidableEq

/-- One row of the ships table (`ship_flows_mock.py` lines 28-33); the
`origin`/`dest` fields embed the `"from"`/`"to"` columns. -/
structure ShipRow where
  name : String
  origin : String
  dest : String
  progress : Rat
  volume : Rat
deriving DecidableEq

/-- Embedding of `get_port_df` (`ship_flows_mock.py` lines 40-45): the
first row whose `name` matches, `None` when the selection is empty. -/
def get_port_df (ports : List PortRow) (n : String) : Option PortRow :=
  ports.find? (fun p => p.name == n)

/-- Embedding of `ships["volume"].max()` (`ship_flows_mock.py`
line 51): the maximum volume over all ships (0 for an empty table). -/
def maxVolume (ships : List ShipRow) : Rat :=
  match ships with
  | [] => 0
  | s :: rest => rest.foldl (fun a x => max a x.volume) s.volume

/-- One position row appended by `compute_positions`
(`ship_flows_mock.py` lines 60-68). -/
structure ShipPosRow where
  name : String
  lat : Rat
  lon : Rat
  origin : String
  dest : String
  volume : Rat
  width : Rat
deriving DecidableEq

/-- One flow row appended by `compute_positions`
(`ship_flows_mock.py` lines 69-77). -/
structure FlowRow where
  from_lat : Rat
  from_lon : Rat
  to_lat : Rat
  to_lon : Rat
  volume : Rat
  width : Rat
  name : String
deriving DecidableEq

/-- The per-ship body of the `compute_positions` loop
(`ship_flows_mock.py` lines 52-77): resolve both ports (skip the ship
when either is missing), interpolate the position, normalise the width
by the supplied maximal volume, and build the two rows. -/
def shipRows (ports : List PortRow) (maxVol : Rat) (ship : ShipRow) :
    Option (ShipPosRow × FlowRow) :=
  match get_port_df ports ship.origin, get_port_df ports ship.dest with
  | some s, some e =>
    let p := position { lat := s.lat, lon := s.lon } { lat := e.lat, lon := e.lon }
      ship.progress
    let width := ship.volume / maxVol * 50
    some ({ name := ship.name, lat := p.1, lon := p.2, origin := ship.origin,
            dest := ship.dest, volume := ship.volume, width := width },
          { from_lat := s.lat, from_lon := s.lon, to_lat := e.lat, to_lon := e.lon,
            volume := ship.volume, width := width, name := ship.name })
  | _, _ => none

/-- Embedding of `compute_positions` (`ship_flows_mock.py` lines
48-78): fold over the ships, appending the two rows of every ship whose
ports both resolve and skipping the others; the width normalisation uses
the maximum volume over the whole ships table. -/
def compute_positions (ports : List PortRow) (ships : List ShipRow) :
    List ShipPosRow × List FlowRow :=
  let maxVol := maxVolume ships
  ships.foldl (fun acc ship =>
    match shipRows ports maxVol ship with
    | some (p, f) => (acc.1 ++ [p], acc.2 ++ [f])
    | none => acc) ([], [])

/-- The effect of one successful cycle on one series' buffer: append the
sample, then trim (`app.py` lines 242-258 restricted to one series). -/
def stepAppend (buf : List Sample) (s : Sample) : List Sample :=
  trimHistory (buf ++ [s])

/-- The per-buffer invariant of the spec: at most `MAX_HISTORY` entries,
timestamps non-decreasing in buffer order. -/
def bufferInvariant (buf : List Sample) : Prop :=
  buf.length ≤ MAX_HISTORY ∧ (buf.map Sample.observed_at).Pairwise (· ≤ ·)

/-- Concrete run of 101 successful cycles, used to instantiate the
buffer-cap theorem. -/
def witnessCycles : List (FetchResult × Nat) :=
  (List.range 101).map (fun i =>
    ({ wti := { price := 75, timestamp := 0, success := true },
       brent := { price := 78, timestamp := 0, success := true } }, i))

/-- A 500 response with an empty body. -/
def resp500 : HttpResponse := { status := 500, body := { rate := none, timestamp := none } }

/-- A 200 response carrying a Brent rate. -/
def respOk : HttpResponse :=
  { status := 200, body := { rate := some (78.50 : Rat), timestamp := some 1700000000 } }

/-- A 200 response whose body is missing the expected rate field. -/
def respMissingRate : HttpResponse :=
  { status := 200, body := { rate := none, timestamp := some 1700000000 } }

/-- A fetch result in which both series succeeded, with WTI at 75.00 and
Brent at 78.50. -/
def quotes7550 : FetchResult :=
  { wti := { price := 75, timestamp := 0, success := true },
    brent := { price := (78.50 : Rat), timestamp := 0, success := true } }

/-- A fetch result in which WTI failed and Brent succeeded. -/
def partialQuotes : FetchResult :=
  { wti := { price := 75, timestamp := 0, success := false },
    brent := { price := (78.50 : Rat), timestamp := 0, success := true } }

/-- A concrete stored sample for the table examples. -/
def demoSample : Sample := { price := 75, observed_at := 3661 }

/-- A one-entry WTI buffer for the table examples. -/
def demoWti : List Sample := [demoSample]

/-- Ports table for the ship-flow examples. -/
def cexPorts : List PortRow :=
  [{ name := "Houston", lat := 29, lon := -95 },
   { name := "Rotterdam", lat := 51, lon := 4 }]

/-- A ship whose origin port is not present in the ports table. -/
def ghostShip : ShipRow :=
  { name := "Ghost", origin := "Atlantis", dest := "Rotterdam",
    progress := 1/2, volume := 4 }

/-- A ship whose ports both resolve. -/
def titanShip : ShipRow :=
  { name := "Crude Titan", origin := "Houston", dest := "Rotterdam",
    progress := 1/2, volume := 2 }

/-! Helper lemmas about the trimmed buffer. -/

theorem trimHistory_length_le (buf : List Sample) :
    (trimHistory buf).length ≤ MAX_HISTORY := by
  unfold trimHistory
  split
  · simp only [List.length_drop]
    omega
  · omega

theorem trimHistory_of_le {buf : List Sample} (h : buf.length ≤ MAX_HISTORY) :
    trimHistory buf = buf := by
  unfold trimHistory
  rw [if_neg (by omega)]

theorem trimHistory_length (buf : List Sample) :
    (trimHistory buf).length = min buf.length MAX_HISTORY := by
  unfold trimHistory
  split
  · simp only [List.length_drop]
    omega
  · omega

theorem stepAppend_eq {buf : List Sample} (s : Sample) (h : buf.length ≤ MAX_HISTORY) :
    stepAppend buf s = (buf ++ [s]).drop (buf.length + 1 - MAX_HISTORY) := by
  unfold stepAppend trimHistory
  rcases Nat.lt_or_ge buf.length MAX_HISTORY with hlt | hge
  · rw [if_neg (by simp only [List.length_append, List.length_singleton]; omega)]
    rw [(by omega : buf.length + 1 - MAX_HISTORY = 0), List.drop_zero]
  · have h100 : buf.length = MAX_HISTORY := le_antisymm h hge
    rw [if_pos (by simp only [List.length_append, List.length_singleton]; omega)]
    congr 1
    simp only [List.length_append, List.length_singleton]

theorem foldl_stepAppend (samples : List Sample) :
    ∀ buf : List Sample, buf.length ≤ MAX_HISTORY →
      samples.foldl stepAppend buf =
        (buf ++ samples).drop (buf.length + samples.length - MAX_HISTORY) := by
  induction samples with
  | nil =>
    intro buf h
    simp [Nat.sub_eq_zero_of_le h]
  | cons s ss ih =>
    intro buf h
    have hM : MAX_HISTORY = 100 := rfl
    rw [List.foldl_cons]
    have h2 : (stepAppend buf s).length ≤ MAX_HISTORY := trimHistory_length_le _
    have hlen2 : (stepAppend buf s).length =
        buf.length + 1 - (buf.length + 1 - MAX_HISTORY) := by
      rw [stepAppend_eq s h]
      simp
    rw [ih _ h2, hlen2, stepAppend_eq s h]
    have hk : buf.length + 1 - MAX_HISTORY ≤ (buf ++ [s]).length := by
      simp
    rw [← List.drop_append_of_le_length hk, List.drop_drop]
    have hl : (buf ++ [s]) ++ ss = buf ++ s :: ss := by simp
    rw [hl]
    congr 1
    simp only [hM, List.length_append, List.length_cons, List.length_nil] at h ⊢
    omega

theorem record_wti_success (st : PriceHistoryState) (r : FetchResult) (now : Nat)
    (h : r.wti.success = true) :
    (record st (some r) now).wti =
      stepAppend st.wti { price := r.wti.price, observed_at := now } := by
  simp [record, appendIfSuccess, stepAppend, h]

theorem record_brent_success (st : PriceHistoryState) (r : FetchResult) (now : Nat)
    (h : r.brent.success = true) :
    (record st (some r) now).brent =
      stepAppend st.brent { price := r.brent.price, observed_at := now } := by
  simp [record, appendIfSuccess, stepAppend, h]

theorem successRun_wti (cycles : List (FetchResult × Nat)) :
    ∀ st : PriceHistoryState,
      (∀ c ∈ cycles, c.1.wti.success = true) →
      (runCycles st (cycles.map (fun c => (some c.1, c.2)))).wti =
        (cycles.map
          (fun c => ({ price := c.1.wti.price, observed_at := c.2 } : Sample))).foldl
          stepAppend st.wti := by
  induction cycles with
  | nil => intro st _; simp [runCycles]
  | cons c cs ih =>
    intro st hsucc
    have hc : c.1.wti.success = true := hsucc c (by simp)
    have hrec := record_wti_success st c.1 c.2 hc
    simp only [List.map_cons, runCycles, List.foldl_cons] at *
    rw [ih (record st (some c.1) c.2) (fun d hd => hsucc d (by simp [hd])), hrec]

theorem successRun_brent (cycles : List (FetchResult × Nat)) :
    ∀ st : PriceHistoryState,
      (∀ c ∈ cycles, c.1.brent.success = true) →
      (runCycles st (cycles.map (fun c => (some c.1, c.2)))).brent =
        (cycles.map
          (fun c => ({ price := c.1.brent.price, observed_at := c.2 } : Sample))).foldl
          stepAppend st.brent := by
  induction cycles with
  | nil => intro st _; simp [runCycles]
  | cons c cs ih =>
    intro st hsucc
    have hc : c.1.brent.success = true := hsucc c (by simp)
    have hrec := record_brent_success st c.1 c.2 hc
    simp only [List.map_cons, runCycles, List.foldl_cons] at *
    rw [ih (record st (some c.1) c.2) (fun d hd => hsucc d (by simp [hd])), hrec]

/-- C1: after any run of more than `MAX_HISTORY` successful fetch-record
cycles starting from the empty session state, each series' buffer has
length exactly `MAX_HISTORY` and equals exactly the last `MAX_HISTORY`
appended samples, in append order (FIFO eviction from the front). -/
theorem C1_fifo_capped_buffer (cycles : List (FetchResult × Nat))
    (hsucc : ∀ c ∈ cycles, c.1.wti.success = true ∧ c.1.brent.success = true)
    (hlen : MAX_HISTORY < cycles.length) :
    (successRun cycles).wti.length = MAX_HISTORY ∧
    (successRun cycles).wti =
      (cycles.map (fun c => ({ price := c.1.wti.price, observed_at := c.2 } : Sample))).drop
        (cycles.length - MAX_HISTORY) ∧
    (successRun cycles).brent.length = MAX_HISTORY ∧
    (successRun cycles).brent =
      (cycles.map
        (fun c => ({ price := c.1.brent.price, observed_at := c.2 } : Sample))).drop
        (cycles.length - MAX_HISTORY) := by
  have hw := successRun_wti cycles { wti := [], brent := [] }
    (fun c hc => (hsucc c hc).1)
  have hb := successRun_brent cycles { wti := [], brent := [] }
    (fun c hc => (hsucc c hc).2)
  have hfw := foldl_stepAppend
    (cycles.map (fun c => ({ price := c.1.wti.price, observed_at := c.2 } : Sample)))
    [] (by simp [MAX_HISTORY])
  have hfb := foldl_stepAppend
    (cycles.map (fun c => ({ price := c.1.brent.price, observed_at := c.2 } : Sample)))
    [] (by simp [MAX_HISTORY])
  simp only [List.nil_append, List.length_nil, Nat.zero_add, List.length_map] at hfw hfb
  have hwti : (successRun cycles).wti =
      (cycles.map (fun c => ({ price := c.1.wti.price, observed_at := c.2 } : Sample))).drop
        (cycles.length - MAX_HISTORY) := by
    rw [successRun, hw, hfw]
  have hbrent : (successRun cycles).brent =
      (cycles.map
        (fun c => ({ price := c.1.brent.price, observed_at := c.2 } : Sample))).drop
        (cycles.length - MAX_HISTORY) := by
    rw [successRun, hb, hfb]
  refine ⟨?_, hwti, ?_, hbrent⟩
  · rw [hwti]
    simp only [List.length_drop, List.length_map]
    omega
  · rw [hbrent]
    simp only [List.length_drop, List.length_map]
    omega

/-- Witness for C1 at a concrete run of 101 successful cycles. -/
theorem C1_fifo_capped_buffer_witness :
    (successRun witnessCycles).wti.length = MAX_HISTORY :=
  (C1_fifo_capped_buffer witnessCycles (by decide) (by decide)).1

theorem trimHistory_sublist (buf : List Sample) : (trimHistory buf).Sublist buf := by
  unfold trimHistory
  split
  · exact List.drop_sublist _ _
  · exact List.Sublist.refl _

theorem recordSeries_invariant (buf : List Sample) (q : SeriesQuote) (now : Nat)
    (hinv : bufferInvariant buf) (hts : ∀ s ∈ buf, s.observed_at ≤ now) :
    bufferInvariant (trimHistory (appendIfSuccess buf q now)) ∧
    ∀ s ∈ trimHistory (appendIfSuccess buf q now),
      s ∈ buf ∨ (q.success = true ∧
        s = ({ price := q.price, observed_at := now } : Sample)) := by
  obtain ⟨hlen, hsort⟩ := hinv
  by_cases hq : q.success = true
  · have happ : appendIfSuccess buf q now =
        buf ++ [{ price := q.price, observed_at := now }] := by
      simp [appendIfSuccess, hq]
    have hp : ((buf ++ [({ price := q.price, observed_at := now } : Sample)]).map
        Sample.observed_at).Pairwise (· ≤ ·) := by
      rw [List.map_append, List.pairwise_append]
      refine ⟨hsort, by simp, ?_⟩
      intro a ha b hb
      simp only [List.map_cons, List.map_nil, List.mem_singleton] at hb
      subst hb
      obtain ⟨s, hs, rfl⟩ := List.mem_map.mp ha
      exact hts s hs
    have hsub := trimHistory_sublist (appendIfSuccess buf q now)
    refine ⟨⟨trimHistory_length_le _, ?_⟩, ?_⟩
    · exact hp.sublist (by rw [← happ]; exact hsub.map Sample.observed_at)
    · intro s hs
      have hmem : s ∈ buf ++ [({ price := q.price, observed_at := now } : Sample)] := by
        rw [← happ]
        exact hsub.subset hs
      rcases List.mem_append.mp hmem with h | h
      · exact Or.inl h
      · exact Or.inr ⟨hq, List.mem_singleton.mp h⟩
  · have happ : appendIfSuccess buf q now = buf := by
      simp [appendIfSuccess, hq]
    rw [happ, trimHistory_of_le hlen]
    exact ⟨⟨hlen, hsort⟩, fun s hs => Or.inl hs⟩

/-- C2: for every buffer state satisfying the invariant (length at most
`MAX_HISTORY`, timestamps non-decreasing) and every record call whose
supplied timestamp is not earlier than any stored timestamp (hence not
earlier than the last one, the buffers being sorted), the invariant is
preserved for both series, and every sample of the new buffers is either
an old sample or the sample of a series marked successful in the fetch
result, stamped with the supplied time. -/
theorem C2_record_preserves_invariant (st : PriceHistoryState)
    (result : Option FetchResult) (now : Nat)
    (hw : bufferInvariant st.wti) (hb : bufferInvariant st.brent)
    (hwts : ∀ s ∈ st.wti, s.observed_at ≤ now)
    (hbts : ∀ s ∈ st.brent, s.observed_at ≤ now) :
    bufferInvariant (record st result now).wti ∧
    bufferInvariant (record st result now).brent ∧
    (∀ s ∈ (record st result now).wti,
      s ∈ st.wti ∨ ∃ r, result = some r ∧ r.wti.success = true ∧
        s = ({ price := r.wti.price, observed_at := now } : Sample)) ∧
    (∀ s ∈ (record st result now).brent,
      s ∈ st.brent ∨ ∃ r, result = some r ∧ r.brent.success = true ∧
        s = { price := r.brent.price, observed_at := now }) := by
  match result with
  | none =>
    exact ⟨hw, hb, fun s hs => Or.inl hs, fun s hs => Or.inl hs⟩
  | some r =>
    have h1 := recordSeries_invariant st.wti r.wti now hw hwts
    have h2 := recordSeries_invariant st.brent r.brent now hb hbts
    refine ⟨h1.1, h2.1, ?_, ?_⟩
    · intro s hs
      rcases h1.2 s hs with h | ⟨hsucc, hval⟩
      · exact Or.inl h
      · exact Or.inr ⟨r, rfl, hsucc, hval⟩
    · intro s hs
      rcases h2.2 s hs with h | ⟨hsucc, hval⟩
      · exact Or.inl h
      · exact Or.inr ⟨r, rfl, hsucc, hval⟩

/-- Witness for C2 at the empty state and a concrete successful result. -/
theorem C2_record_preserves_invariant_witness :
    bufferInvariant (record { wti := [], brent := [] } (some quotes7550) 5).wti :=
  (C2_record_preserves_invariant { wti := [], brent := [] } (some quotes7550) 5
    ⟨by simp [MAX_HISTORY], by simp⟩ ⟨by simp [MAX_HISTORY], by simp⟩
    (by simp) (by simp)).1

/-- C3: the spread is computed exactly when both series succeeded in the
same fetch result, as `brent.price - wti.price` with no rounding, and is
not computed when either series failed; at WTI 75.00 and Brent 78.50 the
spread is 3.50. -/
theorem C3_spread_exact (r : FetchResult) :
    (r.wti.success = true → r.brent.success = true →
      spread r = some (r.brent.price - r.wti.price)) ∧
    (r.wti.success = false ∨ r.brent.success = false → spread r = none) ∧
    spread quotes7550 = some (3.50 : Rat) := by
  refine ⟨?_, ?_, by norm_num [spread, quotes7550]⟩
  · intro h1 h2
    simp [spread, h1, h2]
  · intro h
    rcases h with h | h <;> simp [spread, h]

/-- Witness for C3 at the concrete WTI 75.00 / Brent 78.50 result. -/
theorem C3_spread_exact_witness :
    spread quotes7550 = some (quotes7550.brent.price - quotes7550.wti.price) :=
  (C3_spread_exact quotes7550).1 rfl rfl

/-- C4: a cycle with no fetch result leaves both buffers unchanged; in a
cycle with a result, a failed series' buffer is left exactly unchanged,
and a successful series' buffer changes only by appending one sample and
evicting from the front at capacity. -/
theorem C4_failed_series_frame (st : PriceHistoryState) (r : FetchResult) (now : Nat)
    (hw : st.wti.length ≤ MAX_HISTORY) (hb : st.brent.length ≤ MAX_HISTORY) :
    record st none now = st ∧
    (r.wti.success = false → (record st (some r) now).wti = st.wti) ∧
    (r.brent.success = false → (record st (some r) now).brent = st.brent) ∧
    (r.wti.success = true → (record st (some r) now).wti =
      (st.wti ++ [({ price := r.wti.price, observed_at := now } : Sample)]).drop
        (st.wti.length + 1 - MAX_HISTORY)) ∧
    (r.brent.success = true → (record st (some r) now).brent =
      (st.brent ++ [({ price := r.brent.price, observed_at := now } : Sample)]).drop
        (st.brent.length + 1 - MAX_HISTORY)) := by
  refine ⟨rfl, ?_, ?_, ?_, ?_⟩
  · intro h
    simp [record, appendIfSuccess, h, trimHistory_of_le hw]
  · intro h
    simp [record, appendIfSuccess, h, trimHistory_of_le hb]
  · intro h
    rw [record_wti_success st r now h, stepAppend_eq _ hw]
  · intro h
    rw [record_brent_success st r now h, stepAppend_eq _ hb]

/-- Witness for C4 at the empty state and a result whose WTI series
failed: the WTI buffer is unchanged. -/
theorem C4_failed_series_frame_witness :
    (record { wti := [], brent := [] } (some partialQuotes) 0).wti =
      ({ wti := [], brent := [] } : PriceHistoryState).wti :=
  (C4_failed_series_frame { wti := [], brent := [] } partialQuotes 0
    (by simp [MAX_HISTORY]) (by simp [MAX_HISTORY])).2.1 rfl

/-- C5: when either upstream response has a non-2xx status, the fetch
returns the total failure carrying both reported status codes, and the
record cycle leaves the session state (hence both buffers) exactly
unchanged, so no sample — in particular none with price 0 — is recorded
that cycle. -/
theorem C5_non_2xx_total_failure (wr br : HttpResponse) (st : PriceHistoryState)
    (now : Nat)
    (h : ¬(200 ≤ wr.status ∧ wr.status ≤ 299) ∨ ¬(200 ≤ br.status ∧ br.status ≤ 299)) :
    fetch_oil_prices wr br = .error (wr.status, br.status) ∧
    record st (fetch_oil_prices wr br).toOption now = st := by
  have hcond : (wr.status == 200 && br.status == 200) = false := by
    rcases h with h | h
    · have hne : wr.status ≠ 200 := by omega
      simp [hne]
    · have hne : br.status ≠ 200 := by omega
      simp [hne]
  have hfetch : fetch_oil_prices wr br = .error (wr.status, br.status) := by
    simp [fetch_oil_prices, hcond]
  exact ⟨hfetch, by rw [hfetch]; rfl⟩

/-- Witness for C5 at a concrete 500 response. -/
theorem C5_non_2xx_total_failure_witness :
    fetch_oil_prices resp500 respOk = .error (resp500.status, respOk.status) :=
  (C5_non_2xx_total_failure resp500 respOk { wti := [], brent := [] } 0
    (Or.inl (by decide))).1

/-- C6 counterexample: at a 200/200 response pair whose WTI body is
missing the rate field, the returned result marks WTI as successful
(`success = true`, never `false`) with price 0 — it is not marked as
failed; and at a 201/201 pair (2xx but not 200) the fetch returns a
total failure instead of substituting 0. -/
theorem C6_counterexample :
    ((fetch_oil_prices respMissingRate respOk).toOption.map
      (fun r => r.wti.success) ≠ some false) ∧
    ((fetch_oil_prices respMissingRate respOk).toOption.map
      (fun r => r.wti.success) = some true) ∧
    ((fetch_oil_prices respMissingRate respOk).toOption.map
      (fun r => r.wti.price) = some 0) ∧
    fetch_oil_prices { status := 201, body := respMissingRate.body }
      { status := 201, body := respOk.body } = .error (201, 201) :=
  ⟨by decide, by decide, by decide, rfl⟩

/-- C6 amended: for every response pair with both statuses exactly 200
whose JSON body is missing the expected rate field for a series, the
fetch does not fail: it substitutes 0 for that series' missing price and
marks the series as successful (`success = true`) in the returned
result, rather than returning a parse failure. -/
theorem C6_missing_rate_becomes_zero (wbody bbody : ApiBody) :
    (wbody.rate = none →
      fetch_oil_prices { status := 200, body := wbody } { status := 200, body := bbody } =
        .ok { wti := { price := 0, timestamp := wbody.timestamp.getD 0, success := true },
              brent := { price := bbody.rate.getD 0, timestamp := bbody.timestamp.getD 0,
                         success := true } }) ∧
    (bbody.rate = none →
      fetch_oil_prices { status := 200, body := wbody } { status := 200, body := bbody } =
        .ok { wti := { price := wbody.rate.getD 0, timestamp := wbody.timestamp.getD 0,
                       success := true },
              brent := { price := 0, timestamp := bbody.timestamp.getD 0,
                         success := true } }) := by
  constructor
  · intro hw
    simp [fetch_oil_prices, hw]
  · intro hb
    simp [fetch_oil_prices, hb]

/-- Witness for the amended C6 at concrete bodies. -/
theorem C6_missing_rate_becomes_zero_witness :
    fetch_oil_prices { status := 200, body := respMissingRate.body }
      { status := 200, body := respOk.body } =
      .ok { wti := { price := 0, timestamp := respMissingRate.body.timestamp.getD 0,
                     success := true },
            brent := { price := respOk.body.rate.getD 0,
                       timestamp := respOk.body.timestamp.getD 0, success := true } } :=
  (C6_missing_rate_becomes_zero respMissingRate.body respOk.body).1 rfl

theorem strftimeHMS_ne_empty (t : Nat) : strftimeHMS t ≠ "" := by
  intro hcontra
  have hlen : (strftimeHMS t).length = 0 := by rw [hcontra]; rfl
  unfold strftimeHMS at hlen
  simp only [String.length_append] at hlen
  have hcolon : (":" : String).length = 1 := rfl
  simp only [hcolon] at hlen
  omega

/-- C7: the history table has exactly `max(len(wti), len(brent))` rows;
a row's timestamp is WTI's whenever WTI has an entry at that index (in
particular when both series do), and Brent's when only Brent has an
entry at that index. -/
theorem C7_table_positional_merge (wti brent : List Sample) :
    (as_rows wti brent).length = max wti.length brent.length ∧
    (∀ (i : Nat) (sw : Sample), wti[i]? = some sw →
      ((as_rows wti brent)[i]?).map DisplayRow.timestamp =
        some (strftimeHMS sw.observed_at)) ∧
    (∀ (i : Nat) (sb : Sample), wti[i]? = none → brent[i]? = some sb →
      ((as_rows wti brent)[i]?).map DisplayRow.timestamp =
        some (strftimeHMS sb.observed_at)) := by
  refine ⟨by simp [as_rows], ?_, ?_⟩
  · intro i sw hw
    have hi : i < wti.length := by
      by_contra hni
      push_neg at hni
      rw [List.getElem?_eq_none hni] at hw
      cases hw
    have him : i < max wti.length brent.length := lt_of_lt_of_le hi (le_max_left _ _)
    have hrow : (as_rows wti brent)[i]? = some (rowAt wti brent i) := by
      simp [as_rows, him]
    rw [hrow]
    cases hb : brent[i]? with
    | none => simp [rowAt, hw, hb]
    | some sb => simp [rowAt, hw, hb, strftimeHMS_ne_empty]
  · intro i sb hwn hb
    have hi : i < brent.length := by
      by_contra hni
      push_neg at hni
      rw [List.getElem?_eq_none hni] at hb
      cases hb
    have him : i < max wti.length brent.length := lt_of_lt_of_le hi (le_max_right _ _)
    have hrow : (as_rows wti brent)[i]? = some (rowAt wti brent i) := by
      simp [as_rows, him]
    rw [hrow]
    simp [rowAt, hwn, hb]

/-- Witness for C7 at a one-entry WTI buffer and empty Brent buffer. -/
theorem C7_table_positional_merge_witness :
    ((as_rows demoWti [])[0]?).map DisplayRow.timestamp =
      some (strftimeHMS demoSample.observed_at) :=
  (C7_table_positional_merge demoWti []).2.1 0 demoSample (by decide)

/-- C8: the ship position interpolation is exactly
`start + (end - start) * progress` componentwise, equals the start point
at progress 0 and the end point at progress 1, and maps the origin, the
point (10, 10) and progress 1/2 to (5, 5). -/
theorem C8_position_interpolation (s e : GeoPoint) (p : Rat)
    (h0 : 0 ≤ p) (h1 : p ≤ 1) :
    position s e p = (s.lat + (e.lat - s.lat) * p, s.lon + (e.lon - s.lon) * p) ∧
    position s e 0 = (s.lat, s.lon) ∧
    position s e 1 = (e.lat, e.lon) ∧
    position { lat := 0, lon := 0 } { lat := 10, lon := 10 } (1/2) = (5, 5) := by
  refine ⟨rfl, ?_, ?_, ?_⟩
  · simp [position]
  · simp only [position, mul_one, Prod.mk.injEq]
    constructor <;> ring
  · norm_num [position, Prod.ext_iff]

/-- Witness for C8 at the concrete midpoint example. -/
theorem C8_position_interpolation_witness :
    position { lat := 0, lon := 0 } { lat := 10, lon := 10 } (1/2) = (5, 5) :=
  (C8_position_interpolation { lat := 0, lon := 0 } { lat := 10, lon := 10 } (1/2)
    (by norm_num) (by norm_num)).2.2.2

/-- C9: the fetch never produces a partial result — its `main`-visible
view is `none` or a result with both series marked successful — and a
record cycle driven by a fetch outcome preserves equality of the two
buffer lengths (so, starting from the empty state, the WTI and Brent
buffers always have equal length). -/
theorem C9_fetch_all_or_nothing (wr br : HttpResponse) (st : PriceHistoryState)
    (now : Nat) (hlen : st.wti.length = st.brent.length) :
    ((fetch_oil_prices wr br).toOption = none ∨
      ∃ res, (fetch_oil_prices wr br).toOption = some res ∧
        res.wti.success = true ∧ res.brent.success = true) ∧
    (record st (fetch_oil_prices wr br).toOption now).wti.length =
      (record st (fetch_oil_prices wr br).toOption now).brent.length := by
  by_cases hcond : (wr.status == 200 && br.status == 200) = true
  · have hfetch : fetch_oil_prices wr br =
        .ok { wti := { price := wr.body.rate.getD 0,
                       timestamp := wr.body.timestamp.getD 0, success := true },
              brent := { price := br.body.rate.getD 0,
                         timestamp := br.body.timestamp.getD 0, success := true } } := by
      simp [fetch_oil_prices, hcond]
    rw [hfetch]
    refine ⟨Or.inr ⟨_, rfl, rfl, rfl⟩, ?_⟩
    simp [Except.toOption, record, appendIfSuccess, trimHistory_length, hlen]
  · have hcond2 : (wr.status == 200 && br.status == 200) = false := by
      simpa using hcond
    have hfetch : fetch_oil_prices wr br = .error (wr.status, br.status) := by
      simp [fetch_oil_prices, hcond2]
    rw [hfetch]
    exact ⟨Or.inl rfl, by simp [Except.toOption, record, hlen]⟩

/-- Witness for C9 at the empty state and a failing fetch. -/
theorem C9_fetch_all_or_nothing_witness :
    (record { wti := [], brent := [] } (fetch_oil_prices resp500 respOk).toOption
      0).wti.length =
    (record { wti := [], brent := [] } (fetch_oil_prices resp500 respOk).toOption
      0).brent.length :=
  (C9_fetch_all_or_nothing resp500 respOk { wti := [], brent := [] } 0 rfl).2

theorem compute_positions_foldl (ports : List PortRow) (maxVol : Rat) :
    ∀ (ships : List ShipRow) (acc : List ShipPosRow × List FlowRow),
      ships.foldl (fun acc ship =>
        match shipRows ports maxVol ship with
        | some (p, f) => (acc.1 ++ [p], acc.2 ++ [f])
        | none => acc) acc =
      (acc.1 ++ ships.filterMap (fun sh => (shipRows ports maxVol sh).map Prod.fst),
       acc.2 ++ ships.filterMap (fun sh => (shipRows ports maxVol sh).map Prod.snd)) := by
  intro ships
  induction ships with
  | nil => intro acc; simp
  | cons sh rest ih =>
    intro acc
    rw [List.foldl_cons]
    cases hs : shipRows ports maxVol sh with
    | none => simp [hs, ih]
    | some pf =>
      obtain ⟨p, f⟩ := pf
      simp [hs, ih]

/-- C10 counterexample: with a ports table containing Houston and
Rotterdam, the ship list `[ghostShip, titanShip]` (the first ship's
origin port is unknown) produces rows only for the resolvable ship — but
that ship's width is 25, while running the same ship alone produces
width 50: the skipped ship's volume still enters the width
normalisation, so the resolvable ship is not unaffected by the skipped
one. -/
theorem C10_counterexample :
    ((compute_positions cexPorts [ghostShip, titanShip]).1.map ShipPosRow.name =
      ["Crude Titan"]) ∧
    ((compute_positions cexPorts [ghostShip, titanShip]).2.map FlowRow.name =
      ["Crude Titan"]) ∧
    ((compute_positions cexPorts [ghostShip, titanShip]).1.map ShipPosRow.width =
      [25]) ∧
    ((compute_positions cexPorts [titanShip]).1.map ShipPosRow.width = [50]) := by
  have e1 : ("Houston" == "Atlantis") = false := by decide
  have e2 : ("Rotterdam" == "Atlantis") = false := by decide
  have e3 : ("Houston" == "Rotterdam") = false := by decide
  have e4 : ("Rotterdam" == "Rotterdam") = true := by decide
  have e5 : ("Houston" == "Houston") = true := by decide
  refine ⟨?_, ?_, ?_, ?_⟩ <;>
    norm_num [compute_positions, shipRows, get_port_df, maxVolume, position,
      cexPorts, ghostShip, titanShip, List.find?, e1, e2, e3, e4, e5]

/-- C10 amended: a ship with an unknown origin or destination port
contributes no position row and no flow row, and processing continues:
the output is exactly the rows of the resolvable ships in order — but
each width is normalised by the maximum volume over all ships, skipped
ones included. -/
theorem C10_unresolved_ports_skipped (ports : List PortRow) (ships : List ShipRow) :
    compute_positions ports ships =
      (ships.filterMap (fun sh => (shipRows ports (maxVolume ships) sh).map Prod.fst),
       ships.filterMap (fun sh => (shipRows ports (maxVolume ships) sh).map Prod.snd)) ∧
    ∀ sh, get_port_df ports sh.origin = none ∨ get_port_df ports sh.dest = none →
      shipRows ports (maxVolume ships) sh = none := by
  constructor
  · have h := compute_positions_foldl ports (maxVolume ships) ships ([], [])
    simpa [compute_positions] using h
  · intro sh h
    cases ho : get_port_df ports sh.origin with
    | none => simp [shipRows, ho]
    | some s =>
      cases hd : get_port_df ports sh.dest with
      | none => simp [shipRows, ho, hd]
      | some e =>
        rcases h with h | h
        · rw [ho] at h; cases h
        · rw [hd] at h; cases h

/-- Witness for the amended C10: the ghost ship resolves to no rows. -/
theorem C10_unresolved_ports_skipped_witness :
    shipRows cexPorts (maxVolume [ghostShip, titanShip]) ghostShip = none :=
  (C10_unresolved_ports_skipped cexPorts [ghostShip, titanShip]).2 ghostShip
    (Or.inl (by decide))

end PythonDash
